import Mathlib

/-!
Shallow embedding of `scripts/analyze_logs.py` (log analysis tool comparing
the UniPlaySong and PlayniteSound Playnite extensions).

Conventions of the embedding:
* a log line / message is a `List Char` (lines come from `readlines()` +
  `strip()`, so they contain no newline characters);
* Python `datetime` values are the `PyDateTime` structure below, compared
  through `toMicros` (microseconds on the proleptic Gregorian calendar,
  mirroring `datetime.toordinal`);
* the three line-format regular expressions are hand-compiled to
  deterministic parsers; determinism of each compilation step is justified
  in the comments (backtracking of the Python engine is accounted for
  where it can change the result, e.g. in the metadata field patterns);
* float arithmetic of the reports (`total_seconds()*1000`, `int(delta)`)
  is modelled exactly in integer microseconds: for time spans below
  several years the double rounding of `timedelta.total_seconds()` can
  never move a value across the comparison/floor boundaries used by the
  script (error < 2^-46 s while boundaries are at least 10^-6 s apart,
  and the exact 100 ms boundary value 0.1*1000 rounds back to 100.0).
-/

namespace AnalyzeLogs

/-- Whitespace characters matched by the regex class `\s` (ASCII part;
log lines are ASCII-oriented). -/
def isWsChar (c : Char) : Bool :=
  c == ' ' || c == '\t' || c == '\n' || c == '\r' ||
  c == Char.ofNat 11 || c == Char.ofNat 12

/-- Word characters matched by the regex class `\w` (ASCII part). -/
def isWordChar (c : Char) : Bool :=
  c.isAlpha || c.isDigit || c == '_'

/-- Characters matched by the regex class `[:\s]`. -/
def isColonWs (c : Char) : Bool :=
  c == ':' || isWsChar c

/-- Python `line.strip()`: drop whitespace from both ends. -/
def stripWs (l : List Char) : List Char :=
  ((l.dropWhile isWsChar).reverse.dropWhile isWsChar).reverse

/-- Does `p` occur as a prefix of `l`? (case-sensitive). -/
def startsWith : List Char → List Char → Bool
  | [], _ => true
  | _ :: _, [] => false
  | p :: ps, c :: cs => (p == c) && startsWith ps cs

/-- Python `needle in hay` on strings: contiguous substring search. -/
def containsSub (needle : List Char) : List Char → Bool
  | [] => needle.isEmpty
  | c :: rest => startsWith needle (c :: rest) || containsSub needle rest

/-- Case-insensitive prefix match (regex literal under `re.IGNORECASE`);
returns the remainder after the matched literal. -/
def matchCI : List Char → List Char → Option (List Char)
  | [], l => some l
  | _ :: _, [] => none
  | p :: ps, c :: cs => if p.toLower == c.toLower then matchCI ps cs else none

/-- Python `message.lower()` (ASCII case folding; the classifier keywords
are all ASCII). -/
def lowerStr (l : List Char) : List Char := l.map Char.toLower

/-- Value of a decimal digit character. -/
def readDigit (c : Char) : Option Nat :=
  if c.isDigit then some (c.toNat - 48) else none

/-- Read exactly `n` decimal digits as a number, returning the remainder. -/
def readNDigits : Nat → List Char → Option (Nat × List Char)
  | 0, l => some (0, l)
  | _ + 1, [] => none
  | n + 1, c :: cs => do
    let d ← readDigit c
    let (v, rest) ← readNDigits n cs
    pure (d * 10 ^ n + v, rest)

/-- Expect one literal character, returning the remainder. -/
def expectChar (x : Char) : List Char → Option (List Char)
  | [] => none
  | c :: cs => if c == x then some cs else none

/-- Python `datetime` value as produced by `datetime.strptime` in the
script: year/month/day/hour/minute/second plus microseconds. -/
structure PyDateTime where
  year : Nat
  month : Nat
  day : Nat
  hour : Nat
  minute : Nat
  second : Nat
  usec : Nat
deriving DecidableEq, Repr

/-- Gregorian leap-year test (as used by `datetime`). -/
def isLeapYear (y : Nat) : Bool :=
  y % 4 == 0 && (y % 100 != 0 || y % 400 == 0)

/-- Number of days in a month, with leap years (as `datetime` validates). -/
def daysInMonth (y mo : Nat) : Nat :=
  if mo == 2 then (if isLeapYear y then 29 else 28)
  else if mo == 4 || mo == 6 || mo == 9 || mo == 11 then 30
  else 31

/-- Days in all years strictly before year `y` of the proleptic Gregorian
calendar (year 1 is the first year), following `datetime.toordinal`. -/
def daysBeforeYear (y : Nat) : Nat :=
  let n := y - 1
  n * 365 + n / 4 - n / 100 + n / 400

/-- Days in the months of year `y` strictly before month `mo`. -/
def daysBeforeMonth (y mo : Nat) : Nat :=
  ([0, 31, 59, 90, 120, 151, 181, 212, 243, 273, 304, 334].getD (mo - 1) 0)
  + (if 2 < mo && isLeapYear y then 1 else 0)

/-- Microseconds of a `datetime` counted from the calendar origin; equal
differences of `toMicros` and Python `timedelta` microseconds. -/
def toMicros (t : PyDateTime) : Nat :=
  ((daysBeforeYear t.year + daysBeforeMonth t.year t.month + (t.day - 1)) * 86400
    + t.hour * 3600 + t.minute * 60 + t.second) * 1000000 + t.usec

/-- Field validation performed by the `datetime` constructor (together
with the `_strptime` field regexes; on the zero-padded fixed-width
strings captured by the line recognizers the two stages reject exactly
the values outside these ranges). -/
def dtFieldsOk (y mo d h mi s : Nat) : Bool :=
  1 ≤ y && 1 ≤ mo && mo ≤ 12 && 1 ≤ d && d ≤ daysInMonth y mo &&
  h ≤ 23 && mi ≤ 59 && s ≤ 59

/-- Read up to six fractional-second digits (`%f`), at least one,
scaled to microseconds as `_strptime` does; input here always has
exactly three digits so the scale factor is 1000. -/
def readFrac (l : List Char) : Option (Nat × List Char) :=
  let digs := (l.takeWhile Char.isDigit).take 6
  if digs.isEmpty then none
  else
    let v := digs.foldl (fun a c => a * 10 + (c.toNat - 48)) 0
    some (v * 10 ^ (6 - digs.length), l.drop digs.length)

/-- Shared front of both timestamp formats: `%Y-%m-%d %H:%M:%S` on a
zero-padded fixed-width string. Returns the six fields and remainder. -/
def readDateTimeFields (l : List Char) :
    Option (Nat × Nat × Nat × Nat × Nat × Nat × List Char) := do
  let (y, r) ← readNDigits 4 l
  let r ← expectChar '-' r
  let (mo, r) ← readNDigits 2 r
  let r ← expectChar '-' r
  let (d, r) ← readNDigits 2 r
  let r ← expectChar ' ' r
  let (h, r) ← readNDigits 2 r
  let r ← expectChar ':' r
  let (mi, r) ← readNDigits 2 r
  let r ← expectChar ':' r
  let (s, r) ← readNDigits 2 r
  pure (y, mo, d, h, mi, s, r)

/-- Python `datetime.strptime(ts, "%Y-%m-%d %H:%M:%S.%f")`: the first, fractional
timestamp parse attempt of the script. Fails (Python: `ValueError`) when
the shape does not match, data remains unconverted, or a field is out of
range. -/
def strptimeFrac (l : List Char) : Option PyDateTime := do
  let (y, mo, d, h, mi, s, r) ← readDateTimeFields l
  let r ← expectChar '.' r
  let (us, r) ← readFrac r
  if r.isEmpty && dtFieldsOk y mo d h mi s then
    pure ⟨y, mo, d, h, mi, s, us⟩
  else none

/-- Python `datetime.strptime(ts, "%Y-%m-%d %H:%M:%S")`: the whole-second
fallback parse. Fails when data remains unconverted ("unconverted data
remains"), so it can never succeed on a string carrying `.mmm`. -/
def strptimeNoFrac (l : List Char) : Option PyDateTime := do
  let (y, mo, d, h, mi, s, r) ← readDateTimeFields l
  if r.isEmpty && dtFieldsOk y mo d h mi s then
    pure ⟨y, mo, d, h, mi, s, 0⟩
  else none

/-- Shape of the 23-character timestamp capture
`\d{4}-\d{2}-\d{2} \d{2}:\d{2}:\d{2}\.\d{3}` shared by the three
line-format patterns. -/
def tsShapeOk (l : List Char) : Bool :=
  match l with
  | [c0, c1, c2, c3, c4, c5, c6, c7, c8, c9, c10, c11, c12, c13, c14,
     c15, c16, c17, c18, c19, c20, c21, c22] =>
    c0.isDigit && c1.isDigit && c2.isDigit && c3.isDigit && c4 == '-' &&
    c5.isDigit && c6.isDigit && c7 == '-' && c8.isDigit && c9.isDigit &&
    c10 == ' ' && c11.isDigit && c12.isDigit && c13 == ':' &&
    c14.isDigit && c15.isDigit && c16 == ':' && c17.isDigit &&
    c18.isDigit && c19 == '.' && c20.isDigit && c21.isDigit && c22.isDigit
  | _ => false

/-- Consume the timestamp capture at the head of a line (the capture group
has fixed width, so the regex engine is deterministic here). -/
def splitTs (l : List Char) : Option (List Char × List Char) :=
  if tsShapeOk (l.take 23) then some (l.take 23, l.drop 23) else none

/-- Consume `\s*`. -/
def skipWs (l : List Char) : List Char := l.dropWhile isWsChar

/-- Consume `\s+` (at least one whitespace character, then maximal run;
the following regex atoms in the line patterns cannot consume whitespace
or start inside the run, so the greedy run is the unique match). -/
def skipWs1 : List Char → Option (List Char)
  | [] => none
  | c :: cs => if isWsChar c then some (cs.dropWhile isWsChar) else none

/-- Consume `(\w+)` returning the capture: word characters are neither
whitespace nor any following literal of the line patterns, so the greedy
maximal run is the unique match. -/
def readWord1 (l : List Char) : Option (List Char × List Char) :=
  let w := l.takeWhile isWordChar
  if w.isEmpty then none else some (w, l.drop w.length)

/-- Drop whitespace from the right end only. -/
def rstripWs (l : List Char) : List Char :=
  (l.reverse.dropWhile isWsChar).reverse

/-- Consume `(.*?)\s*\|\s*` of the tabular pattern: the lazy group stops
at the first position from which `\s*\|` succeeds, i.e. the capture is
the text before the first `|` with trailing whitespace stripped (no `|`
at all means the whole pattern fails). Returns (capture, rest after the
`|` with leading whitespace stripped). -/
def splitAtFirstPipe (l : List Char) : Option (List Char × List Char) :=
  let front := l.takeWhile (fun c => !(c == '|'))
  let back := l.drop front.length
  match back with
  | [] => none
  | _ :: rest => some (rstripWs front, skipWs rest)

/-- Format 1 (tabular Playnite `extensions.log`):
`(\d{4}-..\.\d{3})\s*\|\s*(\w+)\s*\|\s*(.*?)\s*\|\s*(.*)` under
`re.match`. Returns (timestamp, level, extension field, message). -/
def matchPattern1 (l : List Char) :
    Option (List Char × List Char × List Char × List Char) := do
  let (ts, r) ← splitTs l
  let r ← expectChar '|' (skipWs r)
  let (lvl, r) ← readWord1 (skipWs r)
  let r ← expectChar '|' (skipWs r)
  let (ext, msg) ← splitAtFirstPipe (skipWs r)
  pure (ts, lvl, ext, msg)

/-- Format 2 (FileLogger):
`\[(\d{4}-..\.\d{3})\]\s+\[(\w+)\]\s+(.*)` under `re.match`.
Returns (timestamp, level, message). -/
def matchPattern2 (l : List Char) :
    Option (List Char × List Char × List Char) := do
  let r ← expectChar '[' l
  let (ts, r) ← splitTs r
  let r ← expectChar ']' r
  let r ← skipWs1 r
  let r ← expectChar '[' r
  let (lvl, r) ← readWord1 r
  let r ← expectChar ']' r
  let msg ← skipWs1 r
  pure (ts, lvl, msg)

/-- Format 3 (simple): `(\d{4}-..\.\d{3})\s+(.*)` under `re.match`.
Returns (timestamp, message). -/
def matchPattern3 (l : List Char) : Option (List Char × List Char) := do
  let (ts, r) ← splitTs l
  let msg ← skipWs1 r
  pure (ts, msg)

/-- Extension-name detection used by the format-2 and format-3 branches:
`'[UniPlaySong]' in message or 'UniPlaySong' in message` (then the same
for PlayniteSound), else the literal name `Unknown`. -/
def extNameFromMessage (m : List Char) : List Char :=
  if containsSub ("[UniPlaySong]".toList) m || containsSub ("UniPlaySong".toList) m then
    "UniPlaySong".toList
  else if containsSub ("[PlayniteSound]".toList) m || containsSub ("PlayniteSound".toList) m then
    "PlayniteSound".toList
  else
    "Unknown".toList

/-- The three recognizers in the script's fixed priority order; the
result is (timestamp string, extension-name string, message). -/
def tryFormats (l : List Char) : Option (List Char × List Char × List Char) :=
  match matchPattern1 l with
  | some (ts, _lvl, ext, msg) => some (ts, ext, msg)
  | none =>
    match matchPattern2 l with
    | some (ts, _lvl, msg) => some (ts, extNameFromMessage msg, msg)
    | none =>
      match matchPattern3 l with
      | some (ts, msg) => some (ts, extNameFromMessage msg, msg)
      | none => none

/-- The `ExtensionType` enum of the script. -/
inductive ExtensionType where
  | UNIPLAYSONG
  | PLAYNITESOUND
  | UNKNOWN
deriving DecidableEq, Repr

/-- The `EventType` enum of the script: twelve keyword-classified categories
plus the catch-all `OTHER` (thirteen members in total; the member the
script calls SHOULD..PLAY..AUDIO is rendered here with its value
spelling `ShouldPlayAudio`). -/
inductive EventType where
  | ON_GAME_SELECTED
  | ON_APPLICATION_STARTED
  | ON_SETTINGS_CHANGED
  | VIDEO_IS_PLAYING_CHANGED
  | SHOULD_PLAY_MUSIC
  | ShouldPlayAudio
  | PLAY_MUSIC_BASED_ON_SELECTED
  | PAUSE_MUSIC
  | RESUME_MUSIC
  | FIRST_SELECT_STATE
  | MEDIA_ELEMENTS_MONITOR
  | ON_MAIN_MODEL_CHANGED
  | OTHER
deriving DecidableEq, Repr

/-- All thirteen members of `EventType`, in declaration order. -/
def allEventTypes : List EventType :=
  [.ON_GAME_SELECTED, .ON_APPLICATION_STARTED, .ON_SETTINGS_CHANGED,
   .VIDEO_IS_PLAYING_CHANGED, .SHOULD_PLAY_MUSIC, .ShouldPlayAudio,
   .PLAY_MUSIC_BASED_ON_SELECTED, .PAUSE_MUSIC, .RESUME_MUSIC,
   .FIRST_SELECT_STATE, .MEDIA_ELEMENTS_MONITOR, .ON_MAIN_MODEL_CHANGED,
   .OTHER]

/-- Embedding of `LogAnalyzer._classify_event`, literally: the if/elif chain over the
lower-cased message. -/
def classifyEvent (message : List Char) : EventType :=
  let m := lowerStr message
  if containsSub ("ongameselected".toList) m || containsSub ("on game selected".toList) m then
    .ON_GAME_SELECTED
  else if containsSub ("onapplicationstarted".toList) m || containsSub ("application started".toList) m then
    .ON_APPLICATION_STARTED
  else if containsSub ("onsettingschanged".toList) m || containsSub ("on settings changed".toList) m then
    .ON_SETTINGS_CHANGED
  else if containsSub ("videoisplaying".toList) m || containsSub ("video is playing".toList) m then
    .VIDEO_IS_PLAYING_CHANGED
  else if containsSub ("shouldplaymusic".toList) m || containsSub ("should play music".toList) m then
    .SHOULD_PLAY_MUSIC
  else if containsSub ("shouldplayaudio".toList) m || containsSub ("should play audio".toList) m then
    .ShouldPlayAudio
  else if containsSub ("playmusicbasedonselected".toList) m then
    .PLAY_MUSIC_BASED_ON_SELECTED
  else if containsSub ("pausemusic".toList) m || containsSub ("pause music".toList) m then
    .PAUSE_MUSIC
  else if containsSub ("resumemusic".toList) m || containsSub ("resume music".toList) m then
    .RESUME_MUSIC
  else if containsSub ("firstselect".toList) m || containsSub ("_firstselect".toList) m || containsSub ("first select".toList) m then
    .FIRST_SELECT_STATE
  else if containsSub ("mediaelementsmonitor".toList) m || containsSub ("media elements monitor".toList) m then
    .MEDIA_ELEMENTS_MONITOR
  else if containsSub ("onmainmodelchanged".toList) m || containsSub ("on main model changed".toList) m then
    .ON_MAIN_MODEL_CHANGED
  else
    .OTHER

/-- The classifier's ordered rule list (keyword alternatives, category),
read off the if/elif chain of `_classify_event` in source order. -/
def eventRules : List (List (List Char) × EventType) :=
  [(["ongameselected".toList, "on game selected".toList], .ON_GAME_SELECTED),
   (["onapplicationstarted".toList, "application started".toList], .ON_APPLICATION_STARTED),
   (["onsettingschanged".toList, "on settings changed".toList], .ON_SETTINGS_CHANGED),
   (["videoisplaying".toList, "video is playing".toList], .VIDEO_IS_PLAYING_CHANGED),
   (["shouldplaymusic".toList, "should play music".toList], .SHOULD_PLAY_MUSIC),
   (["shouldplayaudio".toList, "should play audio".toList], .ShouldPlayAudio),
   (["playmusicbasedonselected".toList], .PLAY_MUSIC_BASED_ON_SELECTED),
   (["pausemusic".toList, "pause music".toList], .PAUSE_MUSIC),
   (["resumemusic".toList, "resume music".toList], .RESUME_MUSIC),
   (["firstselect".toList, "_firstselect".toList, "first select".toList], .FIRST_SELECT_STATE),
   (["mediaelementsmonitor".toList, "media elements monitor".toList], .MEDIA_ELEMENTS_MONITOR),
   (["onmainmodelchanged".toList, "on main model changed".toList], .ON_MAIN_MODEL_CHANGED)]

/-- Does a rule fire on the (already lower-cased) message? -/
def ruleHits (r : List (List Char) × EventType) (m : List Char) : Bool :=
  r.1.any (fun k => containsSub k m)

/-- First-match-wins scan over an ordered rule list, with `OTHER` as the
catch-all result. -/
def findRule : List (List (List Char) × EventType) → List Char → EventType
  | [], _ => .OTHER
  | r :: rs, m => if ruleHits r m then r.2 else findRule rs m

/-- Python `re.search`: try the pattern at every start position, leftmost match
wins. -/
def reSearch (tryAt : List Char → Option α) : List Char → Option α
  | [] => tryAt []
  | c :: rest =>
    match tryAt (c :: rest) with
    | some v => some v
    | none => reSearch tryAt rest

/-- Consume `[:\s]+` when followed by an atom that cannot start with `:`
or whitespace (all backtracking positions sit inside the run, so the
greedy maximal run is the unique candidate). -/
def skipColonWs1 : List Char → Option (List Char)
  | [] => none
  | c :: cs => if isColonWs c then some (cs.dropWhile isColonWs) else none

/-- Backtracking helper for `[:\s]+([C]+)` when the class `C` overlaps
`[:\s]`: the engine gives characters of the run back one at a time (the
reversed run is scanned front to back, i.e. from fewest given back), and
the first position whose character lies in `C` starts the greedy capture;
at least one run character must stay consumed. -/
def btGroup (inClass : Char → Bool) : List Char → List Char → Option (List Char)
  | [], _ => none
  | c :: rs, tailAcc =>
    if rs.isEmpty then none
    else if inClass c then some ((c :: tailAcc).takeWhile inClass)
    else btGroup inClass rs (c :: tailAcc)

/-- Full match of `[:\s]+([C]+)` with Python backtracking, returning the
capture group. -/
def colonWsCapture (inClass : Char → Bool) (l : List Char) : Option (List Char) :=
  let run := l.takeWhile isColonWs
  let rest := l.drop run.length
  if run.isEmpty then none
  else
    match rest with
    | c :: _ =>
      if inClass c then some (rest.takeWhile inClass)
      else btGroup inClass run.reverse rest
    | [] => btGroup inClass run.reverse []

/-- One attempt of `FIELD[:\s]+(true|false)` (case-insensitive) at the
head of `l`, returning the boolean `group(1).lower() == 'true'`. -/
def tryBoolFieldAt (fieldName : List Char) (l : List Char) : Option Bool := do
  let r ← matchCI fieldName l
  let r ← skipColonWs1 r
  match matchCI ("true".toList) r with
  | some _ => pure true
  | none =>
    match matchCI ("false".toList) r with
    | some _ => pure false
    | none => none

/-- One attempt of `VideoIsPlaying[:\s]+(true|false|changing from \w+ to \w+)`
at the head of `l`, returning the capture in its original case. -/
def tryVideoAt (l : List Char) : Option (List Char) := do
  let r ← matchCI ("videoisplaying".toList) l
  let r ← skipColonWs1 r
  match matchCI ("true".toList) r with
  | some _ => pure (r.take 4)
  | none =>
    match matchCI ("false".toList) r with
    | some _ => pure (r.take 5)
    | none => do
      let r1 ← matchCI ("changing from ".toList) r
      let w1 := r1.takeWhile isWordChar
      if w1.isEmpty then none
      else do
        let r2 ← matchCI (" to ".toList) (r1.drop w1.length)
        let w2 := r2.takeWhile isWordChar
        if w2.isEmpty then none
        else pure (r.take (14 + w1.length + 4 + w2.length))

/-- One attempt of `Game[:\s]+([^,\(]+)` at the head of `l`; the script
applies `.strip()` to the capture. -/
def tryGameAt (l : List Char) : Option (List Char) := do
  let r ← matchCI ("game".toList) l
  let g ← colonWsCapture (fun c => !(c == ',' || c == '(')) r
  pure (stripWs g)

/-- One attempt of `ActiveView[:\s]+([^\s,]+)` at the head of `l` (no
strip applied by the script). -/
def tryViewAt (l : List Char) : Option (List Char) := do
  let r ← matchCI ("activeview".toList) l
  colonWsCapture (fun c => !(isWsChar c || c == ',')) r

/-- One attempt of `Mode[:\s]+(Desktop|Fullscreen)` at the head of `l`,
returning the capture in its original case. -/
def tryModeAt (l : List Char) : Option (List Char) := do
  let r ← matchCI ("mode".toList) l
  let r ← skipColonWs1 r
  match matchCI ("desktop".toList) r with
  | some _ => pure (r.take 7)
  | none =>
    match matchCI ("fullscreen".toList) r with
    | some _ => pure (r.take 10)
    | none => none

/-- One attempt of `FIELD[:\s]+(returned|returned:)\s*(true|false)` at
the head of `l`, returning `group(2).lower() == 'true'`; the engine
first tries the bare `returned` alternative and only on failure of the
remaining pattern backtracks to `returned:`. -/
def tryReturnedAt (fieldName : List Char) (l : List Char) : Option Bool := do
  let r ← matchCI fieldName l
  let r ← skipColonWs1 r
  let r1 ← matchCI ("returned".toList) r
  let tf : List Char → Option Bool := fun x =>
    match matchCI ("true".toList) x with
    | some _ => some true
    | none =>
      match matchCI ("false".toList) x with
      | some _ => some false
      | none => none
  match tf (r1.dropWhile isWsChar) with
  | some b => pure b
  | none =>
    match r1 with
    | ':' :: r2 => tf (r2.dropWhile isWsChar)
    | _ => none

/-- Metadata values: the script stores booleans or strings. -/
inductive MetaValue where
  | vb : Bool → MetaValue
  | vs : List Char → MetaValue
deriving DecidableEq, Repr

/-- The fixed key vocabulary of `_extract_metadata`, in the order the
eight fields are probed. -/
def metadataKeys : List String :=
  ["firstSelect", "skipMusic", "videoIsPlaying", "game",
   "activeView", "mode", "shouldPlayMusic", "shouldPlayAudio"]

/-- A dict entry that exists only when its pattern matched. -/
def optEntry (k : String) : Option MetaValue → List (String × MetaValue)
  | some v => [(k, v)]
  | none => []

/-- Embedding of `LogAnalyzer._extract_metadata` (its `event_type` parameter is unused
by the source body): the eight independent `re.search` probes, assembled
in dict insertion order. -/
def extractMetadata (message : List Char) : List (String × MetaValue) :=
  optEntry ("firstSelect") ((reSearch (tryBoolFieldAt ("firstselect".toList)) message).map .vb)
  ++ optEntry ("skipMusic") ((reSearch (tryBoolFieldAt ("skipmusic".toList)) message).map .vb)
  ++ optEntry ("videoIsPlaying") ((reSearch tryVideoAt message).map .vs)
  ++ optEntry ("game") ((reSearch tryGameAt message).map .vs)
  ++ optEntry ("activeView") ((reSearch tryViewAt message).map .vs)
  ++ optEntry ("mode") ((reSearch tryModeAt message).map .vs)
  ++ optEntry ("shouldPlayMusic") ((reSearch (tryReturnedAt ("shouldplaymusic".toList)) message).map .vb)
  ++ optEntry ("shouldPlayAudio") ((reSearch (tryReturnedAt ("shouldplayaudio".toList)) message).map .vb)

/-- Final extension resolution (lines 167-172 of the script): for each
source, the hint substring check and the bracketed message check are
evaluated together, UniPlaySong first. -/
def resolveExt (extName msg : List Char) : ExtensionType :=
  if containsSub ("UniPlaySong".toList) extName
      || containsSub ("[UniPlaySong]".toList) msg then .UNIPLAYSONG
  else if containsSub ("PlayniteSound".toList) extName
      || containsSub ("[PlayniteSound]".toList) msg then .PLAYNITESOUND
  else .UNKNOWN

/-- Modelled from the spec (for refinement comparison only, this is not
code of the script): the claimed resolution order, where the explicit
source-hint field is checked first and the message substring search runs
only if the hint matched neither known identifier. -/
def resolveSpecOrder (extName msg : List Char) : ExtensionType :=
  if containsSub ("UniPlaySong".toList) extName then .UNIPLAYSONG
  else if containsSub ("PlayniteSound".toList) extName then .PLAYNITESOUND
  else if containsSub ("[UniPlaySong]".toList) msg
      || containsSub ("UniPlaySong".toList) msg then .UNIPLAYSONG
  else if containsSub ("[PlayniteSound]".toList) msg
      || containsSub ("PlayniteSound".toList) msg then .PLAYNITESOUND
  else .UNKNOWN

/-- The `LogEvent` dataclass of the script. -/
structure LogEvent where
  timestamp : PyDateTime
  extension : ExtensionType
  event_type : EventType
  message : List Char
  raw_line : List Char
  metadata : List (String × MetaValue)
deriving DecidableEq, Repr

/-- Mutable state of `LogAnalyzer`: the full event list and the two
source partitions. -/
structure AnalyzerState where
  events : List LogEvent
  uniplaysong_events : List LogEvent
  playnitesound_events : List LogEvent
deriving DecidableEq, Repr

/-- Embedding of `LogAnalyzer.__init__`: all three collections start empty. -/
def initState : AnalyzerState := ⟨[], [], []⟩

/-- Assembly of the `LogEvent` for one accepted line: the classifier and
the metadata extractor both run on the message. -/
def mkEvent (t : PyDateTime) (ext : ExtensionType)
    (msg line : List Char) : LogEvent :=
  ⟨t, ext, classifyEvent msg, msg, line, extractMetadata msg⟩

/-- Lines 193-198 of the script: append the event to the full store and
to the partition of its source. -/
def appendEvent (st : AnalyzerState) (ev : LogEvent) : AnalyzerState :=
  { events := st.events ++ [ev]
    uniplaysong_events :=
      if ev.extension = .UNIPLAYSONG then st.uniplaysong_events ++ [ev]
      else st.uniplaysong_events
    playnitesound_events :=
      if ev.extension = .PLAYNITESOUND then st.playnitesound_events ++ [ev]
      else st.playnitesound_events }

/-- Lines 166-198 of the script, after a successful timestamp parse:
resolve the extension, drop unknowns, classify, extract metadata, and
append the event to the store and to its source partition. -/
def storeEvent (st : AnalyzerState) (t : PyDateTime)
    (extName msg line : List Char) : AnalyzerState :=
  match resolveExt extName msg with
  | .UNKNOWN => st
  | ext => appendEvent st (mkEvent t ext msg line)

/-- Processing of one raw line of a log file (the body of the `for` loop
of `_parse_single_log_file`): strip, skip empty, try the three formats,
parse the timestamp with fractional then whole-second fallback, then
store; every failure degrades to returning the state unchanged. -/
def processLine (st : AnalyzerState) (rawLine : List Char) : AnalyzerState :=
  if (stripWs rawLine).isEmpty then st
  else
    match tryFormats (stripWs rawLine) with
    | none => st
    | some (ts, extName, msg) =>
      match strptimeFrac ts with
      | some t => storeEvent st t extName msg (stripWs rawLine)
      | none =>
        match strptimeNoFrac ts with
        | some t => storeEvent st t extName msg (stripWs rawLine)
        | none => st

/-- Processing of a sequence of input lines (one or several log files
processed back to back contribute to the same shared store). -/
def processLines (st : AnalyzerState) (lines : List (List Char)) : AnalyzerState :=
  lines.foldl processLine st

/-- Comparison key of `sorted(self.events, key=lambda e: e.timestamp)`. -/
def tsLe (a b : LogEvent) : Bool :=
  toMicros a.timestamp ≤ toMicros b.timestamp

/-- Insert an event into an already sorted list after every element with
a less-or-equal key, as a stable sort demands for an element arriving
later in the original order. -/
def insertSorted (e : LogEvent) : List LogEvent → List LogEvent
  | [] => [e]
  | x :: xs => if tsLe x e then x :: insertSorted e xs else e :: x :: xs

/-- Embedding of `sorted(self.events, key=lambda e: e.timestamp)`: Python's sort is
stable, and a stable sort's output is the unique permutation that is
weakly increasing on the key and keeps equal-key elements in input
order, so this left-fold stable insertion sort computes the same list. -/
def sortEvents (evs : List LogEvent) : List LogEvent :=
  evs.foldl (fun acc e => insertSorted e acc) []

/-- Window index computed by `create_timeline_report`:
`int((e.timestamp - baseline).total_seconds())`, which for events at or
after the baseline is the floor of the elapsed whole seconds (exact in
integer microseconds, see the float note in the header). -/
def windowOf (base : PyDateTime) (e : LogEvent) : Nat :=
  (toMicros e.timestamp - toMicros base) / 1000000

/-- Baseline of the timeline report: timestamp of the head of the sorted
event list (`sorted_events[0].timestamp`). -/
def timelineBaseline (evs : List LogEvent) : Option PyDateTime :=
  (sortEvents evs).head?.map LogEvent.timestamp

/-- Window index the timeline report assigns to an event of a non-empty
store (0 when the store is empty, a case the report returns early on). -/
def timelineWindowOf (evs : List LogEvent) (e : LogEvent) : Nat :=
  match timelineBaseline evs with
  | some base => windowOf base e
  | none => 0

/-- Observable content of one appended block of
`create_comparison_report`, keeping the data the report text interpolates
and abstracting the fixed surrounding prose. `diffUs` fields carry exact
microseconds; the printed value is `diffUs / 1000` milliseconds. -/
inductive CmpItem where
  /-- a per-source count line for one of the three families -/
  | countLine (src : ExtensionType) (family : EventType) (n : Nat)
  /-- first-occurrence text of one source for a family -/
  | firstMessage (src : ExtensionType) (family : EventType) (msg : List Char)
  /-- metadata of a first occurrence, shown only when non-empty -/
  | metaLine (src : ExtensionType) (family : EventType)
      (m : List (String × MetaValue))
  /-- the `Time difference: ...ms` line (signed, UniPlaySong minus
      PlayniteSound), only ever produced for one family -/
  | timeDiffLine (family : EventType) (diffUs : Int)
  /-- the `Significant timing difference!` warning -/
  | significantLine (family : EventType)
  /-- one `[ ...ms] message` listing line of the `_firstSelect` section,
      offset measured from `self.events[0].timestamp` -/
  | offsetLine (src : ExtensionType) (offsetUs : Int) (msg : List Char)
deriving DecidableEq, Repr

/-- Microsecond timestamp of `self.events[0]`; `create_comparison_report`
reads it whenever a `_firstSelect` listing is produced (on the reachable
states that do so, `events` is non-empty; the default 0 models nothing
the script can observe). -/
def firstStoredMicros (st : AnalyzerState) : Int :=
  match st.events with
  | [] => 0
  | e :: _ => toMicros e.timestamp

/-- OnGameSelected section of `create_comparison_report` (lines
391-420): per-source counts, then — when both sources have at least one
occurrence — the two first occurrences with metadata, the signed time
difference, and the significance warning when its magnitude strictly
exceeds 100 ms. -/
def gsPart (st : AnalyzerState) : List CmpItem :=
  match st.uniplaysong_events.filter (fun e => e.event_type = .ON_GAME_SELECTED),
        st.playnitesound_events.filter (fun e => e.event_type = .ON_GAME_SELECTED) with
  | ups_selections, ps_selections =>
    [CmpItem.countLine .UNIPLAYSONG .ON_GAME_SELECTED ups_selections.length,
     CmpItem.countLine .PLAYNITESOUND .ON_GAME_SELECTED ps_selections.length]
    ++ match ups_selections, ps_selections with
       | ups_first :: _, ps_first :: _ =>
         [CmpItem.firstMessage .UNIPLAYSONG .ON_GAME_SELECTED ups_first.message]
         ++ (if ups_first.metadata.isEmpty then []
             else [CmpItem.metaLine .UNIPLAYSONG .ON_GAME_SELECTED ups_first.metadata])
         ++ [CmpItem.firstMessage .PLAYNITESOUND .ON_GAME_SELECTED ps_first.message]
         ++ (if ps_first.metadata.isEmpty then []
             else [CmpItem.metaLine .PLAYNITESOUND .ON_GAME_SELECTED ps_first.metadata])
         ++ [CmpItem.timeDiffLine .ON_GAME_SELECTED
               ((toMicros ups_first.timestamp : Int) - (toMicros ps_first.timestamp : Int))]
         ++ (if 100000 <
               ((toMicros ups_first.timestamp : Int)
                 - (toMicros ps_first.timestamp : Int)).natAbs then
               [CmpItem.significantLine .ON_GAME_SELECTED]
             else [])
       | _, _ => []

/-- VideoIsPlaying section of `create_comparison_report` (lines
422-433): per-source counts, then — when both sources have at least one
occurrence — only the two first messages; no time difference and no
significance warning are computed for this family. -/
def videoPart (st : AnalyzerState) : List CmpItem :=
  match st.uniplaysong_events.filter (fun e => e.event_type = .VIDEO_IS_PLAYING_CHANGED),
        st.playnitesound_events.filter (fun e => e.event_type = .VIDEO_IS_PLAYING_CHANGED) with
  | ups_video, ps_video =>
    [CmpItem.countLine .UNIPLAYSONG .VIDEO_IS_PLAYING_CHANGED ups_video.length,
     CmpItem.countLine .PLAYNITESOUND .VIDEO_IS_PLAYING_CHANGED ps_video.length]
    ++ match ups_video, ps_video with
       | uv :: _, pv :: _ =>
         [CmpItem.firstMessage .UNIPLAYSONG .VIDEO_IS_PLAYING_CHANGED uv.message,
          CmpItem.firstMessage .PLAYNITESOUND .VIDEO_IS_PLAYING_CHANGED pv.message]
       | _, _ => []

/-- The `_firstSelect` section of `create_comparison_report` (lines
435-453): per-source counts, then up to the first five occurrences per
source, each with its offset from `self.events[0].timestamp`. -/
def fsPart (st : AnalyzerState) : List CmpItem :=
  [CmpItem.countLine .UNIPLAYSONG .FIRST_SELECT_STATE
     (st.uniplaysong_events.filter (fun e => e.event_type = .FIRST_SELECT_STATE)).length,
   CmpItem.countLine .PLAYNITESOUND .FIRST_SELECT_STATE
     (st.playnitesound_events.filter (fun e => e.event_type = .FIRST_SELECT_STATE)).length]
  ++ ((st.uniplaysong_events.filter (fun e => e.event_type = .FIRST_SELECT_STATE)).take 5).map
       (fun e => CmpItem.offsetLine .UNIPLAYSONG
         ((toMicros e.timestamp : Int) - firstStoredMicros st) e.message)
  ++ ((st.playnitesound_events.filter (fun e => e.event_type = .FIRST_SELECT_STATE)).take 5).map
       (fun e => CmpItem.offsetLine .PLAYNITESOUND
         ((toMicros e.timestamp : Int) - firstStoredMicros st) e.message)

/-- Embedding of `LogAnalyzer.create_comparison_report`, reduced to the list of data
blocks it appends, in source order: the OnGameSelected section, the
VideoIsPlaying section, then the `_firstSelect` section. -/
def create_comparison_report (st : AnalyzerState) : List CmpItem :=
  gsPart st ++ videoPart st ++ fsPart st

/-- Store invariant relating the full event list and the two source
partitions. -/
def goodState (st : AnalyzerState) : Prop :=
  st.uniplaysong_events = st.events.filter (fun e => e.extension = .UNIPLAYSONG) ∧
  st.playnitesound_events = st.events.filter (fun e => e.extension = .PLAYNITESOUND) ∧
  st.events.length = st.uniplaysong_events.length + st.playnitesound_events.length

/-- Demonstration input: one OnGameSelected and one VideoIsPlaying line
per source, with the two first VideoIsPlaying occurrences 200 ms apart
and the two first OnGameSelected occurrences 300 ms apart (UniPlaySong
earlier). -/
def demoLinesC1 : List (List Char) :=
  [("2024-01-01 10:00:00.000 | INFO | UniPlaySong | OnGameSelected Game: Foo").toList,
   ("2024-01-01 10:00:00.300 | INFO | PlayniteSound | OnGameSelected Game: Foo").toList,
   ("2024-01-01 10:00:01.000 | INFO | UniPlaySong | VideoIsPlaying: true").toList,
   ("2024-01-01 10:00:01.200 | INFO | PlayniteSound | VideoIsPlaying: true").toList]

/-- The analyzer state after ingesting `demoLinesC1`. -/
def demoStateC1 : AnalyzerState := processLines initState demoLinesC1

/-- Demonstration input with events stored out of chronological order:
the first stored event (10:00:05) is five seconds later than the
`_firstSelect` event (10:00:00), so the first stored timestamp is not
the global earliest. -/
def demoLinesC7 : List (List Char) :=
  [("2024-01-01 10:00:05.000 | INFO | UniPlaySong | OnGameSelected Game: Foo").toList,
   ("2024-01-01 10:00:00.000 | INFO | UniPlaySong | FirstSelect: true").toList]

/-- The analyzer state after ingesting `demoLinesC7`. -/
def demoStateC7 : AnalyzerState := processLines initState demoLinesC7

/-- Demonstration line whose explicit source field names PlayniteSound
while the message carries the bracketed UniPlaySong marker. -/
def demoLineC3 : List Char :=
  ("2024-01-01 10:00:00.000 | INFO | PlayniteSound | [UniPlaySong] test").toList

/-- Demonstration line in a valid tabular shape whose timestamp has
month 13, so both timestamp parses fail. -/
def demoLineC8 : List Char :=
  ("2024-13-01 10:00:00.000 | INFO | UniPlaySong | x").toList

/-- Demonstration message on which all eight metadata field patterns
match. -/
def demoMsgC6 : List Char :=
  ("FirstSelect: true SkipMusic: false VideoIsPlaying: true Game: Foo, ActiveView: Grid, Mode: Desktop ShouldPlayMusic returned true ShouldPlayAudio returned false").toList

/-- A UniPlaySong event `s` seconds and `ms` milliseconds after
10:00:00.000, as assembled by the pipeline for a game-selection line. -/
def evC5 (s ms : Nat) : LogEvent :=
  mkEvent ⟨2024, 1, 1, 10, 0, s, ms * 1000⟩ .UNIPLAYSONG
    ("OnGameSelected demo".toList) ("OnGameSelected demo".toList)

/-- Demonstration event set for the windowing example: the anchor event
plus events at offsets 0.2 s, 0.9 s, 1.1 s and 2.0 s. -/
def demoEventsC5 : List LogEvent :=
  [evC5 0 0, evC5 0 200, evC5 0 900, evC5 1 100, evC5 2 0]

/-- Category family a comparison-report item belongs to (the
`_firstSelect` listing lines belong to the first-select family). -/
def famOf : CmpItem → EventType
  | .countLine _ f _ => f
  | .firstMessage _ f _ => f
  | .metaLine _ f _ => f
  | .timeDiffLine f _ => f
  | .significantLine f => f
  | .offsetLine _ _ _ => .FIRST_SELECT_STATE

/-- Is the item a `Time difference` line? -/
def isTimeDiff : CmpItem → Bool
  | .timeDiffLine _ _ => true
  | _ => false

/-- Is the item a `Significant timing difference` warning? -/
def isSignificant : CmpItem → Bool
  | .significantLine _ => true
  | _ => false

/-- Is the item a `_firstSelect` listing line? -/
def isOffset : CmpItem → Bool
  | .offsetLine _ _ _ => true
  | _ => false

/-- Did the pattern of the named metadata field match the message? One
probe per key of `metadataKeys`, mirroring the eight `re.search` calls
of `_extract_metadata`. -/
def fieldProbe (msg : List Char) : String → Bool
  | "firstSelect" => (reSearch (tryBoolFieldAt ("firstselect".toList)) msg).isSome
  | "skipMusic" => (reSearch (tryBoolFieldAt ("skipmusic".toList)) msg).isSome
  | "videoIsPlaying" => (reSearch tryVideoAt msg).isSome
  | "game" => (reSearch tryGameAt msg).isSome
  | "activeView" => (reSearch tryViewAt msg).isSome
  | "mode" => (reSearch tryModeAt msg).isSome
  | "shouldPlayMusic" => (reSearch (tryReturnedAt ("shouldplaymusic".toList)) msg).isSome
  | "shouldPlayAudio" => (reSearch (tryReturnedAt ("shouldplayaudio".toList)) msg).isSome
  | _ => false

/-- The UniPlaySong OnGameSelected event stored from the first line of
`demoLinesC1`. -/
def demoEvU : LogEvent :=
  mkEvent ⟨2024, 1, 1, 10, 0, 0, 0⟩ .UNIPLAYSONG
    ("OnGameSelected Game: Foo".toList)
    (("2024-01-01 10:00:00.000 | INFO | UniPlaySong | OnGameSelected Game: Foo").toList)

/-- The PlayniteSound OnGameSelected event stored from the second line
of `demoLinesC1`. -/
def demoEvP : LogEvent :=
  mkEvent ⟨2024, 1, 1, 10, 0, 0, 300000⟩ .PLAYNITESOUND
    ("OnGameSelected Game: Foo".toList)
    (("2024-01-01 10:00:00.300 | INFO | PlayniteSound | OnGameSelected Game: Foo").toList)

/-- The `_firstSelect` event stored from the second line of
`demoLinesC7`. -/
def demoEvFS : LogEvent :=
  mkEvent ⟨2024, 1, 1, 10, 0, 0, 0⟩ .UNIPLAYSONG
    ("FirstSelect: true".toList)
    (("2024-01-01 10:00:00.000 | INFO | UniPlaySong | FirstSelect: true").toList)

/-! ## Theorems -/

theorem classify_eq_findRule (msg : List Char) :
    classifyEvent msg = findRule eventRules (lowerStr msg) := by
  simp only [classifyEvent, findRule, eventRules, ruleHits, List.any_cons,
    List.any_nil, Bool.or_false, Bool.or_assoc]

theorem findRule_earliest (rs : List (List (List Char) × EventType))
    (m : List Char) :
    ∀ (i : Fin rs.length), ruleHits (rs.get i) m = true →
      (∀ j : Fin rs.length, (j : Nat) < (i : Nat) → ruleHits (rs.get j) m = false) →
      findRule rs m = (rs.get i).2 := by
  induction rs with
  | nil => exact fun i => absurd i.2 (by simp)
  | cons r rt ih =>
    intro i hi hmin
    match i with
    | ⟨0, _⟩ =>
      simp only [List.get] at hi
      simp [findRule, hi]
    | ⟨k + 1, hk⟩ =>
      have hr : ruleHits r m = false := by
        simpa using hmin ⟨0, by simp⟩ (by simp)
      simp only [List.get] at hi ⊢
      simp only [findRule, hr, Bool.false_eq_true, if_false]
      exact ih ⟨k, by simpa using hk⟩ hi
        (fun j hj => by simpa using hmin ⟨j.val + 1, by simp⟩ (by simpa using hj))

theorem findRule_no_hit (rs : List (List (List Char) × EventType))
    (m : List Char)
    (h : ∀ i : Fin rs.length, ruleHits (rs.get i) m = false) :
    findRule rs m = .OTHER := by
  induction rs with
  | nil => rfl
  | cons r rt ih =>
    have h0 : ruleHits r m = false := h ⟨0, by simp⟩
    simp only [findRule, h0, Bool.false_eq_true, if_false]
    exact ih (fun i => by simpa using h ⟨i.val + 1, by simp⟩)

theorem findRule_ne_later (rs : List (List (List Char) × EventType))
    (m : List Char) :
    ∀ (i j : Fin rs.length), (i : Nat) < (j : Nat) →
      ruleHits (rs.get i) m = true →
      (rs.map Prod.snd).Nodup →
      findRule rs m ≠ (rs.get j).2 := by
  induction rs with
  | nil => exact fun i => absurd i.2 (by simp)
  | cons r rt ih =>
    intro i j hij hi hnd
    rw [List.map_cons, List.nodup_cons] at hnd
    match j with
    | ⟨0, _⟩ => exact absurd hij (by simp)
    | ⟨jj + 1, hj⟩ =>
      have hjj : jj < rt.length := by simpa using hj
      have hmem : (rt.get ⟨jj, hjj⟩).2 ∈ rt.map Prod.snd :=
        List.mem_map_of_mem Prod.snd (rt.get_mem _ _)
      by_cases hr : ruleHits r m = true
      · simp only [findRule, hr, if_true, List.get]
        intro heq
        exact hnd.1 (heq ▸ hmem)
      · match i with
        | ⟨0, _⟩ => simp only [List.get] at hi; exact absurd hi hr
        | ⟨ii + 1, hii⟩ =>
          simp only [findRule, hr, Bool.false_eq_true, if_false, List.get] at hi ⊢
          exact ih ⟨ii, by simpa using hii⟩ ⟨jj, hjj⟩ (by simpa using hij) hi hnd.2

/-- C2 counterexample: the classifier's fixed ordered taxonomy does not
have fourteen categories. The rule list read off the if/elif chain has
twelve keyword rules, so with the catch-all there are thirteen pairwise
distinct categories, not fourteen. -/
theorem C2_counterexample :
    eventRules.length = 12 ∧ eventRules.length + 1 = 13 ∧
    ¬(eventRules.length + 1 = 14) ∧
    allEventTypes.length = 13 ∧ allEventTypes.Nodup ∧
    (eventRules.map Prod.snd ++ [EventType.OTHER]) = allEventTypes := by
  refine ⟨rfl, rfl, by decide, rfl, by decide, by rfl⟩

/-- C2 (amended): the event classifier is a first-match-wins scan over a
fixed ordered list of twelve keyword rules with the catch-all `Other` as
thirteenth category: the assigned category is the earliest rule whose
case-insensitive keyword appears anywhere in the message, `Other` when
no rule matches, and whenever some rule at position `i` matches, the
result is never the category of any later rule `j > i` — in particular
a message containing keywords of two different categories is always
classified as the earlier rule. -/
theorem C2_classifier_first_match (msg : List Char) :
    classifyEvent msg = findRule eventRules (lowerStr msg) ∧
    eventRules.length = 12 ∧
    (∀ i : Fin eventRules.length,
       ruleHits (eventRules.get i) (lowerStr msg) = true →
       (∀ j : Fin eventRules.length, (j : Nat) < (i : Nat) →
          ruleHits (eventRules.get j) (lowerStr msg) = false) →
       classifyEvent msg = (eventRules.get i).2) ∧
    ((∀ i : Fin eventRules.length,
        ruleHits (eventRules.get i) (lowerStr msg) = false) →
       classifyEvent msg = .OTHER) ∧
    (∀ i j : Fin eventRules.length, (i : Nat) < (j : Nat) →
       ruleHits (eventRules.get i) (lowerStr msg) = true →
       classifyEvent msg ≠ (eventRules.get j).2) := by
  have hbase := classify_eq_findRule msg
  refine ⟨hbase, rfl, ?_, ?_, ?_⟩
  · intro i hi hmin
    rw [hbase]
    exact findRule_earliest eventRules (lowerStr msg) i hi hmin
  · intro hall
    rw [hbase]
    exact findRule_no_hit eventRules (lowerStr msg) hall
  · intro i j hij hi
    rw [hbase]
    exact findRule_ne_later eventRules (lowerStr msg) i j hij hi (by decide)

/-- C2 witness: a message carrying keywords of the fifth rule
(should-play-music) and of the eighth rule (pause-music) is classified
as the earlier of the two. -/
theorem C2_witness :
    classifyEvent ("ShouldPlayMusic returned true, pause music".toList)
      = .SHOULD_PLAY_MUSIC ∧
    classifyEvent ("ShouldPlayMusic returned true, pause music".toList)
      ≠ .PAUSE_MUSIC := by
  have h := C2_classifier_first_match
    ("ShouldPlayMusic returned true, pause music".toList)
  refine ⟨h.2.2.1 ⟨4, by decide⟩ (by decide) (by decide), ?_⟩
  have hne := h.2.2.2.2 ⟨4, by decide⟩ ⟨7, by decide⟩ (by decide) (by decide)
  simpa using hne

theorem storeEvent_cases (st : AnalyzerState) (t : PyDateTime)
    (extName msg line : List Char) :
    storeEvent st t extName msg line = st ∨
      ∃ ev : LogEvent,
        (ev.extension = .UNIPLAYSONG ∨ ev.extension = .PLAYNITESOUND) ∧
        storeEvent st t extName msg line = appendEvent st ev := by
  unfold storeEvent
  cases h : resolveExt extName msg with
  | UNKNOWN => exact Or.inl rfl
  | UNIPLAYSONG =>
    exact Or.inr ⟨mkEvent t .UNIPLAYSONG msg line, Or.inl rfl, rfl⟩
  | PLAYNITESOUND =>
    exact Or.inr ⟨mkEvent t .PLAYNITESOUND msg line, Or.inr rfl, rfl⟩

theorem processLine_cases (st : AnalyzerState) (l : List Char) :
    processLine st l = st ∨
      ∃ ev : LogEvent,
        (ev.extension = .UNIPLAYSONG ∨ ev.extension = .PLAYNITESOUND) ∧
        processLine st l = appendEvent st ev := by
  unfold processLine
  split
  · exact Or.inl rfl
  · split
    · exact Or.inl rfl
    · split
      · exact storeEvent_cases _ _ _ _ _
      · split
        · exact storeEvent_cases _ _ _ _ _
        · exact Or.inl rfl

theorem goodState_appendEvent {st : AnalyzerState} (h : goodState st)
    {ev : LogEvent}
    (hext : ev.extension = .UNIPLAYSONG ∨ ev.extension = .PLAYNITESOUND) :
    goodState (appendEvent st ev) := by
  obtain ⟨h1, h2, h3⟩ := h
  rcases hext with hA | hB
  · refine ⟨?_, ?_, ?_⟩ <;>
      simp [appendEvent, hA, List.filter_append, List.filter, h1, h2, h3] <;>
      omega
  · have hnotA : ¬(ev.extension = .UNIPLAYSONG) := by rw [hB]; intro hc; cases hc
    refine ⟨?_, ?_, ?_⟩ <;>
      simp [appendEvent, hB, hnotA, List.filter_append, List.filter, h1, h2, h3] <;>
      omega

theorem goodState_processLine {st : AnalyzerState} (h : goodState st)
    (l : List Char) : goodState (processLine st l) := by
  rcases processLine_cases st l with heq | ⟨ev, hext, heq⟩
  · rw [heq]; exact h
  · rw [heq]; exact goodState_appendEvent h hext

theorem goodState_processLines {st : AnalyzerState} (h : goodState st)
    (lines : List (List Char)) : goodState (processLines st lines) := by
  induction lines generalizing st with
  | nil => exact h
  | cons l lt ih => exact ih (goodState_processLine h l)

/-- C10: after processing any sequence of input lines from the fresh
analyzer state, the UniPlaySong partition is exactly the sublist of
stored events with source UniPlaySong in insertion order (and likewise
for PlayniteSound), and the full event list's length is the sum of the
two partitions' lengths. -/
theorem C10_store_partition (lines : List (List Char)) :
    (processLines initState lines).uniplaysong_events =
      (processLines initState lines).events.filter
        (fun e => e.extension = .UNIPLAYSONG) ∧
    (processLines initState lines).playnitesound_events =
      (processLines initState lines).events.filter
        (fun e => e.extension = .PLAYNITESOUND) ∧
    (processLines initState lines).events.length =
      (processLines initState lines).uniplaysong_events.length +
        (processLines initState lines).playnitesound_events.length :=
  @goodState_processLines initState ⟨rfl, rfl, rfl⟩ lines

/-- C4: no input line can make the per-line pipeline fail: a line that
matches none of the three recognizers, or whose timestamp fails both
parse attempts, leaves the state unchanged (skip), and processing a line
sequence always continues with the next line on the resulting state (the
embedding is a total function, mirroring that no exception escapes the
loop body). -/
theorem C4_malformed_line_skipped (st : AnalyzerState) (line : List Char)
    (rest : List (List Char)) :
    (tryFormats (stripWs line) = none → processLine st line = st) ∧
    (∀ ts extName msg,
       tryFormats (stripWs line) = some (ts, extName, msg) →
       strptimeFrac ts = none → strptimeNoFrac ts = none →
       processLine st line = st) ∧
    processLines st (line :: rest) = processLines (processLine st line) rest := by
  refine ⟨?_, ?_, rfl⟩
  · intro h
    unfold processLine
    split
    · rfl
    · simp only [h]
  · intro ts extName msg h hf hn
    unfold processLine
    split
    · rfl
    · simp only [h, hf, hn]

/-- C4 witness: a line with no recognizable format contributes zero
events and processing proceeds normally. -/
theorem C4_witness :
    tryFormats (stripWs ("garbage text".toList)) = none ∧
    processLine initState ("garbage text".toList) = initState := by
  refine ⟨by decide, ?_⟩
  exact (C4_malformed_line_skipped initState ("garbage text".toList) []).1
    (by decide)

theorem splitTs_shape {l ts r : List Char} (h : splitTs l = some (ts, r)) :
    tsShapeOk ts = true := by
  unfold splitTs at h
  split at h
  · obtain ⟨rfl, rfl⟩ := Prod.mk.injEq .. ▸ Option.some_inj.mp h
    assumption
  · cases h

theorem matchPattern1_shape {l ts lvl ext msg : List Char}
    (h : matchPattern1 l = some (ts, lvl, ext, msg)) : tsShapeOk ts = true := by
  unfold matchPattern1 at h
  simp only [bind, Option.bind_eq_some, Option.pure_def, Option.some_inj] at h
  obtain ⟨⟨ts', r1⟩, h1, ⟨r2, _, ⟨⟨lvl', r3⟩, _, ⟨r4, _, ⟨⟨ext', msg'⟩, _, heq⟩⟩⟩⟩⟩ := h
  obtain ⟨rfl, -⟩ := Prod.mk.injEq .. ▸ heq
  exact splitTs_shape h1

theorem matchPattern2_shape {l ts lvl msg : List Char}
    (h : matchPattern2 l = some (ts, lvl, msg)) : tsShapeOk ts = true := by
  unfold matchPattern2 at h
  simp only [bind, Option.bind_eq_some, Option.pure_def, Option.some_inj] at h
  obtain ⟨r0, _, ⟨⟨ts', r1⟩, h1, ⟨r2, _, ⟨r3, _, ⟨r4, _, ⟨⟨lvl', r5⟩, _,
    ⟨r6, _, ⟨msg', _, heq⟩⟩⟩⟩⟩⟩⟩⟩ := h
  obtain ⟨rfl, -⟩ := Prod.mk.injEq .. ▸ heq
  exact splitTs_shape h1

theorem matchPattern3_shape {l ts msg : List Char}
    (h : matchPattern3 l = some (ts, msg)) : tsShapeOk ts = true := by
  unfold matchPattern3 at h
  simp only [bind, Option.bind_eq_some, Option.pure_def, Option.some_inj] at h
  obtain ⟨⟨ts', r1⟩, h1, ⟨msg', _, heq⟩⟩ := h
  obtain ⟨rfl, -⟩ := Prod.mk.injEq .. ▸ heq
  exact splitTs_shape h1

theorem tryFormats_shape {l ts extName msg : List Char}
    (h : tryFormats l = some (ts, extName, msg)) : tsShapeOk ts = true := by
  unfold tryFormats at h
  split at h
  · next heq =>
    obtain ⟨rfl, -⟩ := Prod.mk.injEq .. ▸ Option.some_inj.mp h
    exact matchPattern1_shape heq
  · split at h
    · next heq =>
      obtain ⟨rfl, -⟩ := Prod.mk.injEq .. ▸ Option.some_inj.mp h
      exact matchPattern2_shape heq
    · split at h
      · next heq =>
        obtain ⟨rfl, -⟩ := Prod.mk.injEq .. ▸ Option.some_inj.mp h
        exact matchPattern3_shape heq
      · cases h

theorem tsShape_noFrac {ts : List Char} (h : tsShapeOk ts = true) :
    (∃ d1 d2 d3 : Char, ∃ front : List Char,
       ts = front ++ ['.', d1, d2, d3] ∧
       d1.isDigit = true ∧ d2.isDigit = true ∧ d3.isDigit = true) ∧
    strptimeNoFrac ts = none := by
  unfold tsShapeOk at h
  split at h
  next c0 c1 c2 c3 c4 c5 c6 c7 c8 c9 c10 c11 c12 c13 c14 c15 c16 c17 c18
       c19 c20 c21 c22 =>
    simp only [Bool.and_eq_true, beq_iff_eq, and_assoc] at h
    obtain ⟨h0, h1, h2, h3, e4, h5, h6, e7, h8, h9, e10, h11, h12, e13,
      h14, h15, e16, h17, h18, e19, h20, h21, h22⟩ := h
    subst e4 e7 e10 e13 e16 e19
    constructor
    · exact ⟨c20, c21, c22,
        [c0, c1, c2, c3, '-', c5, c6, '-', c8, c9, ' ', c11, c12, ':',
         c14, c15, ':', c17, c18], by simp, h20, h21, h22⟩
    · simp [strptimeNoFrac, readDateTimeFields, readNDigits, readDigit,
        expectChar, h0, h1, h2, h3, h5, h6, h8, h9, h11, h12, h14, h15,
        h17, h18]
  next => exact absurd h (by simp)

/-- C8: every line accepted by any of the three recognizers captures a
timestamp string ending in a dot and exactly three digits, on which the
whole-second fallback parse always fails (unconverted data remains); so
an accepted line is stored only when the fractional parse succeeds, with
exactly that parse's timestamp, and is skipped whenever it fails. -/
theorem C8_fallback_parse_never_succeeds (st : AnalyzerState)
    (line ts extName msg : List Char)
    (h : tryFormats (stripWs line) = some (ts, extName, msg)) :
    (∃ d1 d2 d3 : Char, ∃ front : List Char,
       ts = front ++ ['.', d1, d2, d3] ∧
       d1.isDigit = true ∧ d2.isDigit = true ∧ d3.isDigit = true) ∧
    strptimeNoFrac ts = none ∧
    (strptimeFrac ts = none → processLine st line = st) ∧
    (∀ t : PyDateTime, strptimeFrac ts = some t →
       processLine st line = storeEvent st t extName msg (stripWs line)) := by
  have hshape := tryFormats_shape h
  obtain ⟨⟨d1, d2, d3, front, hts, hd1, hd2, hd3⟩, hnone⟩ :=
    tsShape_noFrac hshape
  have hne : (stripWs line).isEmpty = false := by
    cases he : stripWs line with
    | nil =>
      rw [he] at h
      rw [show tryFormats ([] : List Char) = none from by decide] at h
      cases h
    | cons a as => rfl
  refine ⟨⟨d1, d2, d3, front, hts, hd1, hd2, hd3⟩, hnone, ?_, ?_⟩
  · intro hf
    unfold processLine
    simp only [hne, Bool.false_eq_true, if_false, h, hf, hnone]
  · intro t hf
    unfold processLine
    simp only [hne, Bool.false_eq_true, if_false, h, hf]

/-- C8 witness: a tabular line with month 13 is accepted by the first
recognizer, both timestamp parses fail, and the line is skipped. -/
theorem C8_witness :
    strptimeNoFrac (("2024-13-01 10:00:00.000").toList) = none ∧
    processLine initState demoLineC8 = initState := by
  have h := C8_fallback_parse_never_succeeds initState demoLineC8
    (("2024-13-01 10:00:00.000").toList) (("UniPlaySong").toList)
    (("x").toList) (by decide)
  exact ⟨h.2.1, h.2.2.1 (by decide)⟩

theorem events_not_unknown {st : AnalyzerState}
    (h : ∀ e ∈ st.events, e.extension ≠ .UNKNOWN)
    (lines : List (List Char)) :
    ∀ e ∈ (processLines st lines).events, e.extension ≠ .UNKNOWN := by
  induction lines generalizing st with
  | nil => exact h
  | cons l lt ih =>
    apply ih
    rcases processLine_cases st l with heq | ⟨ev, hext, heq⟩
    · rw [heq]; exact h
    · rw [heq]
      intro e he
      rw [appendEvent, List.mem_append] at he
      rcases he with he | he
      · exact h e he
      · rw [List.mem_singleton] at he
        subst he
        rcases hext with hA | hB
        · rw [hA]; intro hc; cases hc
        · rw [hB]; intro hc; cases hc

/-- C3 counterexample: a tabular line whose explicit source field reads
PlayniteSound but whose message carries the bracketed UniPlaySong marker
is attributed to UniPlaySong by the script, while the claimed hint-first
resolution order would conclusively resolve the hint to PlayniteSound
and never reach the message search. -/
theorem C3_counterexample :
    resolveSpecOrder (("PlayniteSound").toList) (("[UniPlaySong] test").toList)
      = .PLAYNITESOUND ∧
    resolveExt (("PlayniteSound").toList) (("[UniPlaySong] test").toList)
      = .UNIPLAYSONG ∧
    (processLines initState [demoLineC3]).events.map (fun e => e.extension)
      = [.UNIPLAYSONG] :=
  ⟨by decide, by decide, by decide⟩

/-- C3 (amended): the source classifier resolves every parsed line to
exactly one of UniPlaySong, PlayniteSound or unknown, but the hint and
the bracketed message marker are checked together per source, UniPlaySong
first, rather than hint-first: UniPlaySong's hint-or-message condition
wins outright, PlayniteSound's is consulted only when UniPlaySong's
fails, unknown results only when both fail; every event resolving to
unknown is dropped before storage and appears in no stored collection. -/
theorem C3_source_resolution (extName msg : List Char)
    (lines : List (List Char)) :
    (resolveExt extName msg = .UNIPLAYSONG ∨
     resolveExt extName msg = .PLAYNITESOUND ∨
     resolveExt extName msg = .UNKNOWN) ∧
    ((containsSub ("UniPlaySong".toList) extName = true ∨
      containsSub ("[UniPlaySong]".toList) msg = true) →
       resolveExt extName msg = .UNIPLAYSONG) ∧
    (containsSub ("UniPlaySong".toList) extName = false →
     containsSub ("[UniPlaySong]".toList) msg = false →
     (containsSub ("PlayniteSound".toList) extName = true ∨
      containsSub ("[PlayniteSound]".toList) msg = true) →
       resolveExt extName msg = .PLAYNITESOUND) ∧
    (containsSub ("UniPlaySong".toList) extName = false →
     containsSub ("[UniPlaySong]".toList) msg = false →
     containsSub ("PlayniteSound".toList) extName = false →
     containsSub ("[PlayniteSound]".toList) msg = false →
       resolveExt extName msg = .UNKNOWN) ∧
    (∀ e ∈ (processLines initState lines).events,
       e.extension ≠ .UNKNOWN) := by
  refine ⟨?_, ?_, ?_, ?_, ?_⟩
  · unfold resolveExt
    split
    · exact Or.inl rfl
    · split
      · exact Or.inr (Or.inl rfl)
      · exact Or.inr (Or.inr rfl)
  · intro hA
    have hcond : (containsSub ("UniPlaySong".toList) extName
        || containsSub ("[UniPlaySong]".toList) msg) = true := by
      rcases hA with h | h
      · rw [h, Bool.true_or]
      · rw [h, Bool.or_true]
    unfold resolveExt
    rw [if_pos hcond]
  · intro h1 h2 hB
    have hc1 : ¬((containsSub ("UniPlaySong".toList) extName
        || containsSub ("[UniPlaySong]".toList) msg) = true) := by
      rw [h1, h2, Bool.or_self]
      exact Bool.false_ne_true
    have hc2 : (containsSub ("PlayniteSound".toList) extName
        || containsSub ("[PlayniteSound]".toList) msg) = true := by
      rcases hB with h | h
      · rw [h, Bool.true_or]
      · rw [h, Bool.or_true]
    unfold resolveExt
    rw [if_neg hc1, if_pos hc2]
  · intro h1 h2 h3 h4
    have hc1 : ¬((containsSub ("UniPlaySong".toList) extName
        || containsSub ("[UniPlaySong]".toList) msg) = true) := by
      rw [h1, h2, Bool.or_self]
      exact Bool.false_ne_true
    have hc2 : ¬((containsSub ("PlayniteSound".toList) extName
        || containsSub ("[PlayniteSound]".toList) msg) = true) := by
      rw [h3, h4, Bool.or_self]
      exact Bool.false_ne_true
    unfold resolveExt
    rw [if_neg hc1, if_neg hc2]
  · exact events_not_unknown (by intro e he; cases he) lines

/-- C3 witness: the per-source resolution applied at concrete inputs. -/
theorem C3_witness :
    resolveExt (("UniPlaySong").toList) (("hello").toList) = .UNIPLAYSONG ∧
    resolveExt (("PlayniteSound").toList) (("hello").toList) = .PLAYNITESOUND := by
  refine ⟨(C3_source_resolution (("UniPlaySong").toList) (("hello").toList) []).2.1
      (Or.inl (by decide)), ?_⟩
  exact (C3_source_resolution (("PlayniteSound").toList) (("hello").toList) []).2.2.1
    (by decide) (by decide) (Or.inl (by decide))

/-- C9: source resolution is biased toward UniPlaySong: when the markers
of both known sources are present (via the hint substring or the
bracketed message marker), the final resolution picks UniPlaySong, and
the format-2/format-3 name-detection branch likewise returns UniPlaySong
whenever its marker appears, regardless of PlayniteSound's. -/
theorem C9_uniplaysong_bias (extName msg m : List Char) :
    ((containsSub ("UniPlaySong".toList) extName = true ∨
      containsSub ("[UniPlaySong]".toList) msg = true) →
     (containsSub ("PlayniteSound".toList) extName = true ∨
      containsSub ("[PlayniteSound]".toList) msg = true) →
     resolveExt extName msg = .UNIPLAYSONG) ∧
    ((containsSub ("[UniPlaySong]".toList) m = true ∨
      containsSub ("UniPlaySong".toList) m = true) →
     extNameFromMessage m = "UniPlaySong".toList) := by
  constructor
  · intro hA _
    have hcond : (containsSub ("UniPlaySong".toList) extName
        || containsSub ("[UniPlaySong]".toList) msg) = true := by
      rcases hA with h | h
      · rw [h, Bool.true_or]
      · rw [h, Bool.or_true]
    unfold resolveExt
    rw [if_pos hcond]
  · intro hA
    have hcond : (containsSub ("[UniPlaySong]".toList) m
        || containsSub ("UniPlaySong".toList) m) = true := by
      rcases hA with h | h
      · rw [h, Bool.true_or]
      · rw [h, Bool.or_true]
    unfold extNameFromMessage
    rw [if_pos hcond]

/-- C9 witness: both markers present, UniPlaySong wins in the final
resolution and in the message-branch detection. -/
theorem C9_witness :
    resolveExt (("UniPlaySongPlayniteSound").toList) ([] : List Char)
      = .UNIPLAYSONG ∧
    extNameFromMessage (("[UniPlaySong] [PlayniteSound]").toList)
      = "UniPlaySong".toList := by
  refine ⟨(C9_uniplaysong_bias (("UniPlaySongPlayniteSound").toList)
      ([] : List Char) ([] : List Char)).1
      (Or.inl (by decide)) (Or.inl (by decide)), ?_⟩
  exact (C9_uniplaysong_bias ([] : List Char) ([] : List Char)
      (("[UniPlaySong] [PlayniteSound]").toList)).2 (Or.inl (by decide))

/-- C6 counterexample: on a single message all eight metadata field
patterns match and the produced map carries eight distinct keys, so the
metadata vocabulary has eight fields, not seven. -/
theorem C6_counterexample :
    (extractMetadata demoMsgC6).map Prod.fst = metadataKeys ∧
    (extractMetadata demoMsgC6).length = 8 ∧
    ¬((extractMetadata demoMsgC6).length ≤ 7) :=
  ⟨by decide, by decide, by decide⟩

/-- C6 (amended): for every message, the keys of the produced metadata
map are exactly the members of the fixed eight-name vocabulary whose
pattern matched, in the fixed probing order — so keys are drawn only
from the fixed set of eight field names, each field is independently
present or absent, a non-matching field is omitted rather than bound to
a placeholder, and no key ever repeats. -/
theorem C6_metadata_fixed_keys (msg : List Char) :
    (extractMetadata msg).map Prod.fst = metadataKeys.filter (fieldProbe msg) ∧
    metadataKeys.length = 8 ∧
    ((extractMetadata msg).map Prod.fst).Nodup ∧
    (∀ k v, (k, v) ∈ extractMetadata msg → k ∈ metadataKeys) := by
  have p1 : fieldProbe msg ("firstSelect")
      = (reSearch (tryBoolFieldAt ("firstselect".toList)) msg).isSome := rfl
  have p2 : fieldProbe msg ("skipMusic")
      = (reSearch (tryBoolFieldAt ("skipmusic".toList)) msg).isSome := rfl
  have p3 : fieldProbe msg ("videoIsPlaying")
      = (reSearch tryVideoAt msg).isSome := rfl
  have p4 : fieldProbe msg ("game") = (reSearch tryGameAt msg).isSome := rfl
  have p5 : fieldProbe msg ("activeView")
      = (reSearch tryViewAt msg).isSome := rfl
  have p6 : fieldProbe msg ("mode") = (reSearch tryModeAt msg).isSome := rfl
  have p7 : fieldProbe msg ("shouldPlayMusic")
      = (reSearch (tryReturnedAt ("shouldplaymusic".toList)) msg).isSome := rfl
  have p8 : fieldProbe msg ("shouldPlayAudio")
      = (reSearch (tryReturnedAt ("shouldplayaudio".toList)) msg).isSome := rfl
  have key : (extractMetadata msg).map Prod.fst
      = metadataKeys.filter (fieldProbe msg) := by
    unfold extractMetadata metadataKeys
    simp only [List.filter_cons, List.filter_nil, p1, p2, p3, p4, p5, p6, p7, p8]
    cases h1 : reSearch (tryBoolFieldAt ("firstselect".toList)) msg <;>
    cases h2 : reSearch (tryBoolFieldAt ("skipmusic".toList)) msg <;>
    cases h3 : reSearch tryVideoAt msg <;>
    cases h4 : reSearch tryGameAt msg <;>
    cases h5 : reSearch tryViewAt msg <;>
    cases h6 : reSearch tryModeAt msg <;>
    cases h7 : reSearch (tryReturnedAt ("shouldplaymusic".toList)) msg <;>
    cases h8 : reSearch (tryReturnedAt ("shouldplayaudio".toList)) msg <;>
    simp only [optEntry, Option.map_some', Option.map_none',
      Option.isSome_some, Option.isSome_none, if_true, if_false,
      Bool.false_eq_true, List.map_append, List.map_cons, List.map_nil,
      List.append_nil, List.nil_append, List.cons_append]
  refine ⟨key, rfl, ?_, ?_⟩
  · rw [key]
    exact List.Nodup.filter _ (by decide)
  · intro k v hkv
    have hmem : k ∈ (extractMetadata msg).map Prod.fst :=
      List.mem_map_of_mem Prod.fst hkv
    rw [key] at hmem
    exact List.mem_of_mem_filter hmem

/-- C6 witness: the key equation applied at a concrete message carrying
a game name and a mode. -/
theorem C6_witness :
    (extractMetadata ("Game: Foo, Mode: Desktop".toList)).map Prod.fst
      = metadataKeys.filter (fieldProbe ("Game: Foo, Mode: Desktop".toList)) ∧
    ("game" ∈ metadataKeys) := by
  have h := C6_metadata_fixed_keys ("Game: Foo, Mode: Desktop".toList)
  exact ⟨h.1, h.2.2.2 ("game") (MetaValue.vs ("Foo".toList)) (by decide)⟩

theorem insertSorted_perm (e : LogEvent) (l : List LogEvent) :
    (insertSorted e l).Perm (e :: l) := by
  induction l with
  | nil => exact List.Perm.refl _
  | cons x xs ih =>
    unfold insertSorted
    split
    · exact (ih.cons x).trans (List.Perm.swap e x xs)
    · exact List.Perm.refl _

theorem sortEvents_perm (evs : List LogEvent) : (sortEvents evs).Perm evs := by
  suffices h : ∀ acc : List LogEvent,
      (evs.foldl (fun a e => insertSorted e a) acc).Perm (acc ++ evs) by
    simpa [sortEvents] using h []
  induction evs with
  | nil => intro acc; simp
  | cons e es ih =>
    intro acc
    simp only [List.foldl_cons]
    refine (ih (insertSorted e acc)).trans ?_
    refine (List.Perm.append_right es (insertSorted_perm e acc)).trans ?_
    exact List.perm_middle.symm

theorem insertSorted_sorted {l : List LogEvent} (e : LogEvent)
    (h : List.Pairwise (fun a b => tsLe a b = true) l) :
    List.Pairwise (fun a b => tsLe a b = true) (insertSorted e l) := by
  induction l with
  | nil => exact List.pairwise_singleton _ _
  | cons x xs ih =>
    obtain ⟨hx, hxs⟩ := List.pairwise_cons.mp h
    unfold insertSorted
    split
    next hle =>
      refine List.pairwise_cons.mpr ⟨?_, ih hxs⟩
      intro b hb
      rcases List.mem_cons.mp ((insertSorted_perm e xs).mem_iff.mp hb) with
        rfl | hbxs
      · exact hle
      · exact hx b hbxs
    next hnle =>
      refine List.pairwise_cons.mpr ⟨?_, h⟩
      intro b hb
      have hxe : ¬(toMicros x.timestamp ≤ toMicros e.timestamp) := by
        simpa [tsLe] using hnle
      rcases List.mem_cons.mp hb with rfl | hbxs
      · simp only [tsLe, decide_eq_true_eq]
        omega
      · have hxb : toMicros x.timestamp ≤ toMicros b.timestamp := by
          simpa [tsLe] using hx b hbxs
        simp only [tsLe, decide_eq_true_eq]
        omega

theorem sortEvents_sorted (evs : List LogEvent) :
    List.Pairwise (fun a b => tsLe a b = true) (sortEvents evs) := by
  suffices h : ∀ acc : List LogEvent,
      List.Pairwise (fun a b => tsLe a b = true) acc →
      List.Pairwise (fun a b => tsLe a b = true)
        (evs.foldl (fun a e => insertSorted e a) acc) by
    exact h [] List.Pairwise.nil
  induction evs with
  | nil => exact fun acc h => h
  | cons e es ih =>
    intro acc h
    simp only [List.foldl_cons]
    exact ih _ (insertSorted_sorted e h)

/-- C5: the timeline windowing baseline is the minimum timestamp of the
set being windowed (the head of the sorted event list), and every event
is assigned the window index `(µe - µbase) / 10^6`, the floor of the
elapsed whole seconds since that minimum. -/
theorem C5_timeline_windowing (evs : List LogEvent) (e : LogEvent)
    (he : e ∈ evs) :
    ∃ b : PyDateTime, timelineBaseline evs = some b ∧
      (∀ x ∈ evs, toMicros b ≤ toMicros x.timestamp) ∧
      (∃ x ∈ evs, x.timestamp = b) ∧
      timelineWindowOf evs e
        = (toMicros e.timestamp - toMicros b) / 1000000 := by
  have hperm := sortEvents_perm evs
  have hsorted := sortEvents_sorted evs
  cases hs : sortEvents evs with
  | nil =>
    rw [hs] at hperm
    exact absurd (hperm.symm.mem_iff.mp he) (List.not_mem_nil e)
  | cons hd tl =>
    rw [hs] at hperm hsorted
    refine ⟨hd.timestamp, ?_, ?_, ?_, ?_⟩
    · unfold timelineBaseline
      rw [hs]
      rfl
    · intro x hx
      rcases List.mem_cons.mp (hperm.symm.subset hx (a := x)) with rfl | hxtl
      · exact Nat.le_refl _
      · simpa [tsLe] using (List.pairwise_cons.mp hsorted).1 x hxtl
    · exact ⟨hd, hperm.subset (List.mem_cons_self hd tl), rfl⟩
    · unfold timelineWindowOf timelineBaseline
      rw [hs]
      rfl

/-- C5 witness: with an event at the anchor, the events at offsets
0.2 s, 0.9 s, 1.1 s and 2.0 s receive window indices 0, 0, 1 and 2. -/
theorem C5_witness :
    timelineWindowOf demoEventsC5 (evC5 0 200) = 0 ∧
    timelineWindowOf demoEventsC5 (evC5 0 900) = 0 ∧
    timelineWindowOf demoEventsC5 (evC5 1 100) = 1 ∧
    timelineWindowOf demoEventsC5 (evC5 2 0) = 2 := by
  have hbase : timelineBaseline demoEventsC5
      = some ((evC5 0 0).timestamp) := by decide
  refine ⟨?_, ?_, ?_, ?_⟩
  · obtain ⟨b, hb, _, _, hw⟩ :=
      C5_timeline_windowing demoEventsC5 (evC5 0 200) (by decide)
    rw [← Option.some_inj.mp (hbase.symm.trans hb)] at hw
    rw [hw]
    decide
  · obtain ⟨b, hb, _, _, hw⟩ :=
      C5_timeline_windowing demoEventsC5 (evC5 0 900) (by decide)
    rw [← Option.some_inj.mp (hbase.symm.trans hb)] at hw
    rw [hw]
    decide
  · obtain ⟨b, hb, _, _, hw⟩ :=
      C5_timeline_windowing demoEventsC5 (evC5 1 100) (by decide)
    rw [← Option.some_inj.mp (hbase.symm.trans hb)] at hw
    rw [hw]
    decide
  · obtain ⟨b, hb, _, _, hw⟩ :=
      C5_timeline_windowing demoEventsC5 (evC5 2 0) (by decide)
    rw [← Option.some_inj.mp (hbase.symm.trans hb)] at hw
    rw [hw]
    decide

theorem gsPart_shape (st : AnalyzerState) :
    ∀ x ∈ gsPart st,
      famOf x = .ON_GAME_SELECTED ∧ isOffset x = false := by
  intro x hx
  unfold gsPart at hx
  cases hu : st.uniplaysong_events.filter
      (fun e => e.event_type = .ON_GAME_SELECTED) with
  | nil =>
    rw [hu] at hx
    cases hp : st.playnitesound_events.filter
        (fun e => e.event_type = .ON_GAME_SELECTED) with
    | nil =>
      rw [hp] at hx
      simp only [List.append_nil, List.mem_cons, List.not_mem_nil, or_false,
        or_assoc] at hx
      rcases hx with rfl | rfl <;> exact ⟨rfl, rfl⟩
    | cons p ps =>
      rw [hp] at hx
      simp only [List.append_nil, List.mem_cons, List.not_mem_nil, or_false,
        or_assoc] at hx
      rcases hx with rfl | rfl <;> exact ⟨rfl, rfl⟩
  | cons u us =>
    rw [hu] at hx
    cases hp : st.playnitesound_events.filter
        (fun e => e.event_type = .ON_GAME_SELECTED) with
    | nil =>
      rw [hp] at hx
      simp only [List.append_nil, List.mem_cons, List.not_mem_nil, or_false,
        or_assoc] at hx
      rcases hx with rfl | rfl <;> exact ⟨rfl, rfl⟩
    | cons p ps =>
      rw [hp] at hx
      simp only [List.mem_cons, List.mem_append, List.mem_singleton,
        List.mem_ite_nil_right, List.mem_ite_nil_left, List.not_mem_nil,
        or_false, or_assoc] at hx
      rcases hx with rfl | rfl | rfl | ⟨-, rfl⟩ | rfl | ⟨-, rfl⟩ | rfl | ⟨-, rfl⟩ <;>
        exact ⟨rfl, rfl⟩

theorem videoPart_shape (st : AnalyzerState) :
    ∀ x ∈ videoPart st,
      famOf x = .VIDEO_IS_PLAYING_CHANGED ∧ isTimeDiff x = false ∧
      isSignificant x = false ∧ isOffset x = false := by
  intro x hx
  unfold videoPart at hx
  cases hu : st.uniplaysong_events.filter
      (fun e => e.event_type = .VIDEO_IS_PLAYING_CHANGED) with
  | nil =>
    rw [hu] at hx
    cases hp : st.playnitesound_events.filter
        (fun e => e.event_type = .VIDEO_IS_PLAYING_CHANGED) with
    | nil =>
      rw [hp] at hx
      simp only [List.append_nil, List.mem_cons, List.not_mem_nil, or_false,
        or_assoc] at hx
      rcases hx with rfl | rfl <;> exact ⟨rfl, rfl, rfl, rfl⟩
    | cons p ps =>
      rw [hp] at hx
      simp only [List.append_nil, List.mem_cons, List.not_mem_nil, or_false,
        or_assoc] at hx
      rcases hx with rfl | rfl <;> exact ⟨rfl, rfl, rfl, rfl⟩
  | cons u us =>
    rw [hu] at hx
    cases hp : st.playnitesound_events.filter
        (fun e => e.event_type = .VIDEO_IS_PLAYING_CHANGED) with
    | nil =>
      rw [hp] at hx
      simp only [List.append_nil, List.mem_cons, List.not_mem_nil, or_false,
        or_assoc] at hx
      rcases hx with rfl | rfl <;> exact ⟨rfl, rfl, rfl, rfl⟩
    | cons p ps =>
      rw [hp] at hx
      simp only [List.mem_cons, List.mem_append, List.not_mem_nil, or_false,
        or_assoc] at hx
      rcases hx with rfl | rfl | rfl | rfl <;> exact ⟨rfl, rfl, rfl, rfl⟩

theorem fsPart_shape (st : AnalyzerState) :
    ∀ x ∈ fsPart st,
      famOf x = .FIRST_SELECT_STATE ∧ isTimeDiff x = false ∧
      isSignificant x = false := by
  intro x hx
  unfold fsPart at hx
  simp only [List.mem_cons, List.mem_append, List.mem_map,
    List.not_mem_nil, or_false, or_assoc] at hx
  rcases hx with rfl | rfl | ⟨e, -, rfl⟩ | ⟨e, -, rfl⟩ <;> exact ⟨rfl, rfl, rfl⟩

theorem gsPart_timeDiff {st : AnalyzerState} {u p : LogEvent}
    {us ps : List LogEvent}
    (hu : st.uniplaysong_events.filter
      (fun e => e.event_type = .ON_GAME_SELECTED) = u :: us)
    (hp : st.playnitesound_events.filter
      (fun e => e.event_type = .ON_GAME_SELECTED) = p :: ps) :
    CmpItem.timeDiffLine .ON_GAME_SELECTED
        ((toMicros u.timestamp : Int) - toMicros p.timestamp) ∈ gsPart st ∧
    (CmpItem.significantLine .ON_GAME_SELECTED ∈ gsPart st ↔
      100000 < ((toMicros u.timestamp : Int) - toMicros p.timestamp).natAbs) := by
  unfold gsPart
  rw [hu, hp]
  constructor
  · simp [List.mem_ite_nil_right, List.mem_ite_nil_left]
  · by_cases hc : 100000 <
        ((toMicros u.timestamp : Int) - toMicros p.timestamp).natAbs
    · simp [hc, List.mem_ite_nil_right, List.mem_ite_nil_left]
    · simp [hc, List.mem_ite_nil_right, List.mem_ite_nil_left]

/-- C1 counterexample: in a run where both sources have exactly one
VideoIsPlaying event and the two are 200 ms apart (beyond the 100 ms
threshold), the comparison report contains no time-difference item and
no significance warning for the video family; and the one time
difference it does report (OnGameSelected) is the signed value −300 ms,
not the absolute difference. -/
theorem C1_counterexample :
    (demoStateC1.uniplaysong_events.filter
       (fun e => e.event_type = .VIDEO_IS_PLAYING_CHANGED)).length = 1 ∧
    (demoStateC1.playnitesound_events.filter
       (fun e => e.event_type = .VIDEO_IS_PLAYING_CHANGED)).length = 1 ∧
    (create_comparison_report demoStateC1).filter
       (fun x => isTimeDiff x && famOf x == .VIDEO_IS_PLAYING_CHANGED) = [] ∧
    (create_comparison_report demoStateC1).filter
       (fun x => isSignificant x && famOf x == .VIDEO_IS_PLAYING_CHANGED) = [] ∧
    CmpItem.timeDiffLine .ON_GAME_SELECTED (-300000)
      ∈ create_comparison_report demoStateC1 ∧
    CmpItem.timeDiffLine .ON_GAME_SELECTED 300000
      ∉ create_comparison_report demoStateC1 :=
  ⟨by decide, by decide, by decide, by decide, by decide, by decide⟩

/-- C1 (amended): the report always carries the per-source counts for
the three families, but a first-occurrence timing comparison exists only
for the OnGameSelected family: when both sources have at least one
OnGameSelected event, the report carries the signed microsecond
difference (UniPlaySong first minus PlayniteSound first; printed in
milliseconds) and flags a significant timing difference exactly when its
magnitude strictly exceeds 100 ms; every time-difference or significance
item in the report belongs to the OnGameSelected family. -/
theorem C1_comparison_families (st : AnalyzerState) :
    (∀ u us p ps,
       st.uniplaysong_events.filter
         (fun e => e.event_type = .ON_GAME_SELECTED) = u :: us →
       st.playnitesound_events.filter
         (fun e => e.event_type = .ON_GAME_SELECTED) = p :: ps →
       CmpItem.timeDiffLine .ON_GAME_SELECTED
           ((toMicros u.timestamp : Int) - toMicros p.timestamp)
         ∈ create_comparison_report st ∧
       (CmpItem.significantLine .ON_GAME_SELECTED
           ∈ create_comparison_report st ↔
         100000 <
           ((toMicros u.timestamp : Int) - toMicros p.timestamp).natAbs)) ∧
    (∀ x ∈ create_comparison_report st,
       isTimeDiff x = true ∨ isSignificant x = true →
       famOf x = .ON_GAME_SELECTED) ∧
    CmpItem.countLine .UNIPLAYSONG .ON_GAME_SELECTED
      (st.uniplaysong_events.filter
        (fun e => e.event_type = .ON_GAME_SELECTED)).length
      ∈ create_comparison_report st ∧
    CmpItem.countLine .PLAYNITESOUND .ON_GAME_SELECTED
      (st.playnitesound_events.filter
        (fun e => e.event_type = .ON_GAME_SELECTED)).length
      ∈ create_comparison_report st ∧
    CmpItem.countLine .UNIPLAYSONG .VIDEO_IS_PLAYING_CHANGED
      (st.uniplaysong_events.filter
        (fun e => e.event_type = .VIDEO_IS_PLAYING_CHANGED)).length
      ∈ create_comparison_report st ∧
    CmpItem.countLine .PLAYNITESOUND .VIDEO_IS_PLAYING_CHANGED
      (st.playnitesound_events.filter
        (fun e => e.event_type = .VIDEO_IS_PLAYING_CHANGED)).length
      ∈ create_comparison_report st ∧
    CmpItem.countLine .UNIPLAYSONG .FIRST_SELECT_STATE
      (st.uniplaysong_events.filter
        (fun e => e.event_type = .FIRST_SELECT_STATE)).length
      ∈ create_comparison_report st ∧
    CmpItem.countLine .PLAYNITESOUND .FIRST_SELECT_STATE
      (st.playnitesound_events.filter
        (fun e => e.event_type = .FIRST_SELECT_STATE)).length
      ∈ create_comparison_report st := by
  refine ⟨?_, ?_, ?_, ?_, ?_, ?_, ?_, ?_⟩
  · intro u us p ps hu hp
    obtain ⟨hmem, hiff⟩ := gsPart_timeDiff hu hp
    refine ⟨List.mem_append_left _ (List.mem_append_left _ hmem), ?_⟩
    constructor
    · intro hx
      rcases List.mem_append.mp hx with hx | hx
      · rcases List.mem_append.mp hx with hx | hx
        · exact hiff.mp hx
        · exact absurd (videoPart_shape st _ hx).2.2.1 (by decide)
      · exact absurd (fsPart_shape st _ hx).2.2 (by decide)
    · intro hc
      exact List.mem_append_left _ (List.mem_append_left _ (hiff.mpr hc))
  · intro x hx hflag
    rcases List.mem_append.mp hx with hx | hx
    · rcases List.mem_append.mp hx with hx | hx
      · exact (gsPart_shape st x hx).1
      · obtain ⟨-, h1, h2, -⟩ := videoPart_shape st x hx
        rcases hflag with hf | hf
        · rw [h1] at hf; cases hf
        · rw [h2] at hf; cases hf
    · obtain ⟨-, h1, h2⟩ := fsPart_shape st x hx
      rcases hflag with hf | hf
      · rw [h1] at hf; cases hf
      · rw [h2] at hf; cases hf
  · refine List.mem_append_left _ (List.mem_append_left _ ?_)
    unfold gsPart
    exact List.mem_append_left _ (List.mem_cons_self _ _)
  · refine List.mem_append_left _ (List.mem_append_left _ ?_)
    unfold gsPart
    exact List.mem_append_left _ (by simp)
  · refine List.mem_append_left _ (List.mem_append_right _ ?_)
    unfold videoPart
    exact List.mem_append_left _ (List.mem_cons_self _ _)
  · refine List.mem_append_left _ (List.mem_append_right _ ?_)
    unfold videoPart
    exact List.mem_append_left _ (by simp)
  · refine List.mem_append_right _ ?_
    unfold fsPart
    exact List.mem_append_left _ (List.mem_append_left _ (List.mem_cons_self _ _))
  · refine List.mem_append_right _ ?_
    unfold fsPart
    exact List.mem_append_left _ (List.mem_append_left _ (by simp))

/-- C1 witness: on the demonstration run, the OnGameSelected comparison
reports the signed −300 ms difference and flags it significant. -/
theorem C1_witness :
    CmpItem.timeDiffLine .ON_GAME_SELECTED (-300000)
      ∈ create_comparison_report demoStateC1 ∧
    CmpItem.significantLine .ON_GAME_SELECTED
      ∈ create_comparison_report demoStateC1 := by
  have h := (C1_comparison_families demoStateC1).1 demoEvU [] demoEvP []
    (by decide) (by decide)
  have hd : ((toMicros demoEvU.timestamp : Int)
      - toMicros demoEvP.timestamp) = -300000 := by decide
  rw [hd] at h
  exact ⟨h.1, h.2.mpr (by decide)⟩

theorem fsPart_listing (st : AnalyzerState) :
    (∀ e ∈ (st.uniplaysong_events.filter
        (fun x => x.event_type = .FIRST_SELECT_STATE)).take 5,
       CmpItem.offsetLine .UNIPLAYSONG
         ((toMicros e.timestamp : Int) - firstStoredMicros st) e.message
         ∈ fsPart st) ∧
    (∀ e ∈ (st.playnitesound_events.filter
        (fun x => x.event_type = .FIRST_SELECT_STATE)).take 5,
       CmpItem.offsetLine .PLAYNITESOUND
         ((toMicros e.timestamp : Int) - firstStoredMicros st) e.message
         ∈ fsPart st) ∧
    (∀ src off m, CmpItem.offsetLine src off m ∈ fsPart st →
       (src = .UNIPLAYSONG ∧
         ∃ e ∈ (st.uniplaysong_events.filter
             (fun x => x.event_type = .FIRST_SELECT_STATE)).take 5,
           off = (toMicros e.timestamp : Int) - firstStoredMicros st ∧
           m = e.message) ∨
       (src = .PLAYNITESOUND ∧
         ∃ e ∈ (st.playnitesound_events.filter
             (fun x => x.event_type = .FIRST_SELECT_STATE)).take 5,
           off = (toMicros e.timestamp : Int) - firstStoredMicros st ∧
           m = e.message)) := by
  refine ⟨?_, ?_, ?_⟩
  · intro e he
    unfold fsPart
    refine List.mem_append_left _ (List.mem_append_right _ ?_)
    exact List.mem_map.mpr ⟨e, he, rfl⟩
  · intro e he
    unfold fsPart
    refine List.mem_append_right _ ?_
    exact List.mem_map.mpr ⟨e, he, rfl⟩
  · intro src off m hx
    unfold fsPart at hx
    simp only [List.mem_cons, List.mem_append, List.mem_map,
      List.not_mem_nil, or_false, or_assoc] at hx
    rcases hx with hx | hx | ⟨e, he, hx⟩ | ⟨e, he, hx⟩
    · cases hx
    · cases hx
    · obtain ⟨rfl, rfl, rfl⟩ :=
        And.intro (CmpItem.offsetLine.injEq .. ▸ hx) trivial |>.1
      exact Or.inl ⟨rfl, e, he, rfl, rfl⟩
    · obtain ⟨rfl, rfl, rfl⟩ :=
        And.intro (CmpItem.offsetLine.injEq .. ▸ hx) trivial |>.1
      exact Or.inr ⟨rfl, e, he, rfl, rfl⟩

/-- C7 counterexample: when a later-timestamped event is stored first
(two log inputs out of chronological order), the `_firstSelect` listing
offsets are computed from the first stored event's timestamp, not from
the global earliest timestamp: the earliest event itself is listed with
offset −5 s instead of 0. -/
theorem C7_counterexample :
    (demoStateC7.events.map (fun e => toMicros e.timestamp)).min?
      = some (toMicros ⟨2024, 1, 1, 10, 0, 0, 0⟩) ∧
    firstStoredMicros demoStateC7 = toMicros ⟨2024, 1, 1, 10, 0, 5, 0⟩ ∧
    CmpItem.offsetLine .UNIPLAYSONG (-5000000) ("FirstSelect: true".toList)
      ∈ create_comparison_report demoStateC7 ∧
    CmpItem.offsetLine .UNIPLAYSONG 0 ("FirstSelect: true".toList)
      ∉ create_comparison_report demoStateC7 :=
  ⟨by decide, by decide, by decide, by decide⟩

/-- C7 (amended): for each source with `_firstSelect` events, the report
lists exactly the first five (or fewer) such occurrences of that source,
each with its offset computed from the timestamp of the first stored
event (`self.events[0]`), which coincides with the global earliest
timestamp only when events are stored in chronological order; no other
listing lines appear. -/
theorem C7_first_select_listing (st : AnalyzerState) :
    (∀ e ∈ (st.uniplaysong_events.filter
        (fun x => x.event_type = .FIRST_SELECT_STATE)).take 5,
       CmpItem.offsetLine .UNIPLAYSONG
         ((toMicros e.timestamp : Int) - firstStoredMicros st) e.message
         ∈ create_comparison_report st) ∧
    (∀ e ∈ (st.playnitesound_events.filter
        (fun x => x.event_type = .FIRST_SELECT_STATE)).take 5,
       CmpItem.offsetLine .PLAYNITESOUND
         ((toMicros e.timestamp : Int) - firstStoredMicros st) e.message
         ∈ create_comparison_report st) ∧
    (∀ src off m, CmpItem.offsetLine src off m ∈ create_comparison_report st →
       (src = .UNIPLAYSONG ∧
         ∃ e ∈ (st.uniplaysong_events.filter
             (fun x => x.event_type = .FIRST_SELECT_STATE)).take 5,
           off = (toMicros e.timestamp : Int) - firstStoredMicros st ∧
           m = e.message) ∨
       (src = .PLAYNITESOUND ∧
         ∃ e ∈ (st.playnitesound_events.filter
             (fun x => x.event_type = .FIRST_SELECT_STATE)).take 5,
           off = (toMicros e.timestamp : Int) - firstStoredMicros st ∧
           m = e.message)) ∧
    (∀ e0 rest, st.events = e0 :: rest →
       firstStoredMicros st = toMicros e0.timestamp) := by
  obtain ⟨h1, h2, h3⟩ := fsPart_listing st
  refine ⟨?_, ?_, ?_, ?_⟩
  · intro e he
    exact List.mem_append_right _ (h1 e he)
  · intro e he
    exact List.mem_append_right _ (h2 e he)
  · intro src off m hx
    rcases List.mem_append.mp hx with hx | hx
    · rcases List.mem_append.mp hx with hx | hx
      · exact absurd (gsPart_shape st _ hx).2 (by simp [isOffset])
      · exact absurd (videoPart_shape st _ hx).2.2.2 (by simp [isOffset])
    · exact h3 src off m hx
  · intro e0 rest he
    unfold firstStoredMicros
    rw [he]

/-- C7 witness: the `_firstSelect` event of the demonstration run is
listed with its offset from the first stored event. -/
theorem C7_witness :
    CmpItem.offsetLine .UNIPLAYSONG (-5000000) ("FirstSelect: true".toList)
      ∈ create_comparison_report demoStateC7 := by
  have h := (C7_first_select_listing demoStateC7).1 demoEvFS (by decide)
  have hd : ((toMicros demoEvFS.timestamp : Int)
      - firstStoredMicros demoStateC7) = -5000000 := by decide
  rw [hd] at h
  exact h

end AnalyzeLogs
